import Mathlib

/-!
Verification of the evidence-fusion pipeline of `ai-image-filter`.

The definitions below are a shallow embedding of the Python sources:
  * `app/services/pipeline_service.py` — `PipelineService._compute_verdict`
    (score accumulation over the three evidence layers and verdict resolution);
  * `app/services/hash_service.py` — `HashService.compute_hash` and
    `find_similar_image`;
  * `app/api/routes.py` — the `/analyze` and `/analyze/batch` endpoints.

Python floats are modelled as rationals (`ℚ`); the arithmetic of the fusion
engine is plain field arithmetic, so this is exact.  The sequential
`scores["ai"] += …` / `scores["real"] += …` mutations of `_compute_verdict`
are modelled as an ordered list of `Contribution` events (one per `+=`), and
the `reasons.append(…)` calls as an ordered list of structured `Reason`
entries carrying the numeric values and strings that the Python f-strings
interpolate.  External capabilities (the PIL decoder, the DinoV2 feature
extractor, cosine similarity) enter as function parameters.
-/

namespace AiImageFilter

/-- Verdict enum of `app/models/schemas.py` (`VerdictType`), serialized as the
lower-snake strings `ai_generated` / `likely_real` / `uncertain`. -/
inductive VerdictType where
  | ai_generated
  | likely_real
  | uncertain
deriving DecidableEq, BEq

/-- Structured reasoning-trail entry.  Each constructor corresponds to one
`reasons.append(f"…")` site of `_compute_verdict`, carrying exactly the data
that the Python f-string interpolates (the localized surrounding text is
presentation and carries no further data). -/
inductive Reason where
  | hash_high (is_ai : Bool) (similarity : ℚ)
  | hash_mid (similarity : ℚ)
  | hash_low (similarity : ℚ)
  | ai_tools (tools : List String)
  | c2pa_ai_info
  | c2pa_credentials
  | exif_high (score : ℚ)
  | exif_mid (score : ℚ)
  | exif_low (score : ℚ)
  | exif_anomalies (labels : List String)
  | detect_ai (confidence : ℚ)
  | detect_real (confidence : ℚ)
  | detect_skipped
deriving DecidableEq, BEq

/-- `HashResult` of `app/models/schemas.py`: the fields of the dict returned by
`HashService.compute_hash`. -/
structure HashResult where
  is_ai : Bool
  similarity : ℚ
deriving DecidableEq

/-- `MetadataResult` fields used by `_compute_verdict`.
`c2pa_ai_related_assertions` models the truthiness of
`(metadata_result.c2pa_info or {}).get("ai_related_assertions")`. -/
structure MetadataResult where
  has_c2pa : Bool
  c2pa_ai_related_assertions : Bool
  ai_tool_signatures : List String
  exif_authenticity_score : ℚ
  exif_inconsistencies : List String
deriving DecidableEq

/-- `DetectionResult` fields used by `_compute_verdict`. -/
structure DetectionResult where
  model_name : String
  is_ai_generated : Bool
  confidence : ℚ
deriving DecidableEq

/-- The four scalar configuration values set in `PipelineService.__init__`
(pipeline_service.py lines 47-51). -/
structure FusionConfig where
  CONFIDENCE_THRESHOLD : ℚ
  AI_DETECTION_WEIGHT : ℚ
  METADATA_WEIGHT : ℚ
  HASH_WEIGHT : ℚ
deriving DecidableEq

/-- The default configuration: threshold 0.7, weights 0.3 / 0.4 / 0.3. -/
def defaultConfig : FusionConfig :=
  ⟨7/10, 3/10, 4/10, 3/10⟩

/-- Which accumulator a `+=` targets: `scores["ai"]` or `scores["real"]`. -/
inductive Side where
  | ai
  | real
deriving DecidableEq, BEq

/-- One `scores[…] += amount` event of `_compute_verdict`. -/
structure Contribution where
  side : Side
  amount : ℚ
deriving DecidableEq

/-- Final value of `scores["ai"]`: sum of the ai-side contributions. -/
def aiSum (cs : List Contribution) : ℚ :=
  (cs.map fun c => match c.side with | Side.ai => c.amount | Side.real => 0).sum

/-- Final value of `scores["real"]`: sum of the real-side contributions. -/
def realSum (cs : List Contribution) : ℚ :=
  (cs.map fun c => match c.side with | Side.ai => 0 | Side.real => c.amount).sum

/-- Hash-layer score events (pipeline_service.py lines 164-194): three bands on
`similarity` with the middle band splitting `HASH_WEIGHT * 0.5` between both
sides. -/
def hashContributions (cfg : FusionConfig) (h : HashResult) : List Contribution :=
  if 85/100 ≤ h.similarity then
    [⟨Side.ai, cfg.HASH_WEIGHT * min ((h.similarity - 85/100) / (15/100) + 1/2) 1⟩]
  else if 70/100 ≤ h.similarity then
    [⟨Side.ai, cfg.HASH_WEIGHT * (1/2) * (1 - (85/100 - h.similarity) / (15/100))⟩,
     ⟨Side.real, cfg.HASH_WEIGHT * (1/2) * ((85/100 - h.similarity) / (15/100))⟩]
  else
    [⟨Side.real, cfg.HASH_WEIGHT * (1/2)⟩]

/-- Hash-layer reasoning entry: exactly one append per band. -/
def hashReasons (h : HashResult) : List Reason :=
  if 85/100 ≤ h.similarity then [Reason.hash_high h.is_ai h.similarity]
  else if 70/100 ≤ h.similarity then [Reason.hash_mid h.similarity]
  else [Reason.hash_low h.similarity]

/-- Metadata rule 2-1 (lines 198-201): AI tool signatures. -/
def sigContributions (cfg : FusionConfig) (m : MetadataResult) : List Contribution :=
  if m.ai_tool_signatures.isEmpty then []
  else [⟨Side.ai, cfg.METADATA_WEIGHT * (4/10)⟩]

/-- Reason appended by metadata rule 2-1, listing the signatures. -/
def sigReasons (m : MetadataResult) : List Reason :=
  if m.ai_tool_signatures.isEmpty then []
  else [Reason.ai_tools m.ai_tool_signatures]

/-- Metadata rule 2-2 (lines 204-212): C2PA analysis. -/
def c2paContributions (cfg : FusionConfig) (m : MetadataResult) : List Contribution :=
  if m.has_c2pa then
    if m.c2pa_ai_related_assertions then [⟨Side.ai, cfg.METADATA_WEIGHT * (2/10)⟩]
    else [⟨Side.real, cfg.METADATA_WEIGHT * (15/100)⟩]
  else []

/-- Reason appended by metadata rule 2-2. -/
def c2paReasons (m : MetadataResult) : List Reason :=
  if m.has_c2pa then
    if m.c2pa_ai_related_assertions then [Reason.c2pa_ai_info]
    else [Reason.c2pa_credentials]
  else []

/-- Metadata rule 2-3 (lines 215-228): EXIF authenticity score bands. -/
def exifContributions (cfg : FusionConfig) (m : MetadataResult) : List Contribution :=
  if 7/10 ≤ m.exif_authenticity_score then
    [⟨Side.real, cfg.METADATA_WEIGHT * (35/100) * m.exif_authenticity_score⟩]
  else if 3/10 ≤ m.exif_authenticity_score then
    [⟨Side.real, cfg.METADATA_WEIGHT * (15/100) * m.exif_authenticity_score⟩]
  else
    [⟨Side.ai, cfg.METADATA_WEIGHT * (25/100)⟩]

/-- Reason appended by metadata rule 2-3, carrying the score. -/
def exifReasons (m : MetadataResult) : List Reason :=
  if 7/10 ≤ m.exif_authenticity_score then [Reason.exif_high m.exif_authenticity_score]
  else if 3/10 ≤ m.exif_authenticity_score then [Reason.exif_mid m.exif_authenticity_score]
  else [Reason.exif_low m.exif_authenticity_score]

/-- The fixed lookup table `inconsistency_msgs` (lines 234-239): four known
tags mapped to human-readable labels, unknown tags passed through verbatim
(`inconsistency_msgs.get(inc, inc)`). -/
def inconsistency_msgs (inc : String) : String :=
  if inc = "editing_software_without_camera" then "편집 SW만 존재"
  else if inc = "perfect_square_ai_resolution" then "AI 생성 해상도"
  else if inc = "unrealistic_aperture" then "비현실적 촬영값"
  else if inc = "missing_datetime_original" then "원본 시간 누락"
  else inc

/-- Metadata rule 2-4 (lines 231-241): EXIF inconsistency patterns, capped at
`min(count * 0.05, 0.15)` of the metadata weight. -/
def inconsContributions (cfg : FusionConfig) (m : MetadataResult) : List Contribution :=
  if m.exif_inconsistencies.isEmpty then []
  else [⟨Side.ai, cfg.METADATA_WEIGHT *
          min ((m.exif_inconsistencies.length : ℚ) * (5/100)) (15/100)⟩]

/-- Reason appended by metadata rule 2-4: the tags mapped through the table. -/
def inconsReasons (m : MetadataResult) : List Reason :=
  if m.exif_inconsistencies.isEmpty then []
  else [Reason.exif_anomalies (m.exif_inconsistencies.map inconsistency_msgs)]

/-- All metadata-layer score events, in source order. -/
def metadataContributions (cfg : FusionConfig) (m : MetadataResult) : List Contribution :=
  sigContributions cfg m ++ c2paContributions cfg m ++
    exifContributions cfg m ++ inconsContributions cfg m

/-- All metadata-layer reasoning entries, in source order. -/
def metadataReasons (m : MetadataResult) : List Reason :=
  sigReasons m ++ c2paReasons m ++ exifReasons m ++ inconsReasons m

/-- Detection-layer score events (lines 244-258): present detection adds
`AI_DETECTION_WEIGHT * confidence` to the side it voted for; absent detection
adds nothing. -/
def detectionContributions (cfg : FusionConfig) : Option DetectionResult → List Contribution
  | none => []
  | some d =>
      if d.is_ai_generated then [⟨Side.ai, cfg.AI_DETECTION_WEIGHT * d.confidence⟩]
      else [⟨Side.real, cfg.AI_DETECTION_WEIGHT * d.confidence⟩]

/-- Detection-layer reasoning entry (skip note when absent). -/
def detectionReasons : Option DetectionResult → List Reason
  | none => [Reason.detect_skipped]
  | some d =>
      if d.is_ai_generated then [Reason.detect_ai d.confidence]
      else [Reason.detect_real d.confidence]

/-- The full ordered sequence of `scores[…] +=` events of `_compute_verdict`. -/
def fusionContributions (cfg : FusionConfig) (h : HashResult) (m : MetadataResult)
    (d : Option DetectionResult) : List Contribution :=
  hashContributions cfg h ++ metadataContributions cfg m ++ detectionContributions cfg d

/-- The full ordered reasoning trail of `_compute_verdict` (the Python code
joins it with `" | "` at the end; we keep the structured list). -/
def fusionReasons (h : HashResult) (m : MetadataResult)
    (d : Option DetectionResult) : List Reason :=
  hashReasons h ++ metadataReasons m ++ detectionReasons d

/-- Models Python `round(x, 4)`: rounding to 4 decimal places.  (Python uses
round-half-to-even on binary floats; at the granularity relevant to the spec —
"rounded to 4 decimal places" — we use Mathlib's `round` on exact rationals.) -/
def round4 (q : ℚ) : ℚ :=
  (round (q * 10000) : ℚ) / 10000

/-- Final verdict resolution of `_compute_verdict` (lines 260-276), including
the inner `if total_score > 0 else 0.5` guard of line 266. -/
def resolveVerdict (cfg : FusionConfig) (aiScore realScore : ℚ) : VerdictType × ℚ :=
  let total := aiScore + realScore
  if total = 0 then (VerdictType.uncertain, 1/2)
  else
    let ratio := if 0 < total then aiScore / total else 1/2
    if cfg.CONFIDENCE_THRESHOLD ≤ ratio then (VerdictType.ai_generated, ratio)
    else if ratio ≤ 1 - cfg.CONFIDENCE_THRESHOLD then (VerdictType.likely_real, 1 - ratio)
    else (VerdictType.uncertain, 1/2 + |ratio - 1/2|)

/-- `PipelineService._compute_verdict`: accumulate the three layers' events,
resolve the verdict, and return it with the confidence rounded to 4 decimal
places (line 280) and the reasoning trail. -/
def compute_verdict (cfg : FusionConfig) (h : HashResult) (m : MetadataResult)
    (d : Option DetectionResult) : VerdictType × ℚ × List Reason :=
  let cs := fusionContributions cfg h m d
  let vc := resolveVerdict cfg (aiSum cs) (realSum cs)
  (vc.1, round4 vc.2, fusionReasons h m d)

/-!
Hash service (`app/services/hash_service.py`).  The external capabilities —
the PIL decoder (`Image.open(io.BytesIO(…)).convert("RGB")`), the DinoV2
feature extractor and the cosine-similarity kernel (which uses square roots
and is therefore not rational) — are abstracted as function parameters; the
control flow of `find_similar_image` and `compute_hash` is embedded exactly.
-/

/-- `HashService.find_similar_image` (hash_service.py lines 81-102): scan the
database keeping the running maximum similarity (initially `0.0`, index
`None`); return the index only when the maximum reaches the threshold. -/
def find_similar_image (V : Type) (cos : V → V → ℚ) (db : List V)
    (threshold : ℚ) (image_vector : V) : Option Nat × ℚ :=
  let best := db.enum.foldl
    (fun acc p => if acc.2 < cos image_vector p.2 then (some p.1, cos image_vector p.2) else acc)
    ((none : Option Nat), (0 : ℚ))
  if threshold ≤ best.2 then best else (none, best.2)

/-- `HashService.compute_hash` (hash_service.py lines 104-129).  `decode`
models `Image.open(…).convert("RGB")`: `none` when PIL raises (the bytes are
not a decodable image).  There is no exception handler in `compute_hash`, so
a decode failure propagates to the caller as an exception, modelled as
`Except.error`. -/
def compute_hash (I V : Type) (decode : List Nat → Option I)
    (extract : I → V) (cos : V → V → ℚ) (db : List V) (threshold : ℚ)
    (image_bytes : List Nat) : Except String HashResult :=
  match decode image_bytes with
  | none => Except.error "UnidentifiedImageError"
  | some image =>
      let image_vector := extract image
      let r := find_similar_image V cos db threshold image_vector
      Except.ok ⟨r.1.isSome, r.2⟩

/-!
API routes (`app/api/routes.py`).  `AnalysisRecord` (the `AnalysisResult`
pydantic model of `app/models/schemas.py`, a file not present in the sources;
modelled from the spec's `AnalysisRecord` row of the data-model table) is a
structured record, not a Python `dict`.  File uploads are modelled by their
content type plus the outcome that `pipeline_service.analyze_image` would
produce for them (a record, or the message of a raised exception).
-/

/-- Modelled from the spec: the `AnalysisRecord` aggregate (id, filename,
verdict, confidence, reasoning trail, executed layers, total time) built by
the orchestrator; `app/models/schemas.py` is not among the sources.  It is a
structured pydantic model, not a plain `dict`. -/
structure AnalysisRecord where
  id : String
  filename : String
  final_verdict : VerdictType
  confidence_score : ℚ
  reasoning : List Reason
  total_execution_time_ms : ℚ
  layers_executed : List String
deriving DecidableEq

/-- The content-type guard of both routes:
`file.content_type and file.content_type.startswith("image/")`.
(`startswith` is the character-prefix test, expressed over the string's
character list.) -/
def fileIsImage (content_type : Option String) : Bool :=
  match content_type with
  | none => false
  | some ct => "image/".data.isPrefixOf ct.data

/-- Keyword parameter names of `PipelineService.analyze_image`
(pipeline_service.py lines 53-57): only `image_bytes` and `filename`. -/
def analyze_image_params : List String :=
  ["image_bytes", "filename"]

/-- Keyword arguments that `analyze_single_image` / `analyze_batch_images`
pass to `pipeline_service.analyze_image` (routes.py lines 45-49 and 71-75). -/
def route_analyze_kwargs : List String :=
  ["image_bytes", "filename", "skip_ai_detection"]

/-- Python keyword binding succeeds iff every keyword argument names a
declared parameter; an unexpected keyword raises `TypeError` at call time. -/
def kwargsBind (params kwargs : List String) : Bool :=
  kwargs.all fun k => params.contains k

/-- Outcome of the `/analyze` route: the JSON record, or an `HTTPException`
with the given status code. -/
inductive RouteResponse where
  | ok (record : AnalysisRecord)
  | clientError (status : Nat)
  | serverError (status : Nat)
deriving DecidableEq

/-- `analyze_single_image` (routes.py lines 30-52): reject non-image content
types with 400; otherwise call `pipeline_service.analyze_image` with the
keyword arguments of `route_analyze_kwargs` inside `try/except` — a failed
keyword binding (`TypeError`) or any exception from the call becomes an
`HTTPException(500)`.  `outcome` models what the body of `analyze_image`
would return for this upload if the call bound successfully. -/
def analyze_single_image (content_type : Option String)
    (outcome : Except String AnalysisRecord) : RouteResponse :=
  if fileIsImage content_type then
    if kwargsBind analyze_image_params route_analyze_kwargs then
      match outcome with
      | Except.ok r => RouteResponse.ok r
      | Except.error _ => RouteResponse.serverError 500
    else RouteResponse.serverError 500
  else RouteResponse.clientError 400

/-- One entry of the batch `results` list (routes.py lines 66-82): either the
`AnalysisResult` model appended on success, or the literal error dict
`{"filename": …, "error": …, "status": "failed"}` appended on exception. -/
inductive BatchEntry where
  | record (r : AnalysisRecord)
  | errorEntry (filename error : String)
deriving DecidableEq

/-- Models Python `isinstance(r, dict)` over a batch entry: the error entry is
a literal `dict`; the `AnalysisResult` pydantic model is not a `dict`. -/
def BatchEntry.isDict : BatchEntry → Bool
  | BatchEntry.record _ => false
  | BatchEntry.errorEntry _ _ => true

/-- Models Python `r.get(key)` on a batch entry that is a `dict`: the error
dict holds exactly the keys `filename`, `error` and `status`.  (On a
non-`dict` entry the routes never call `get`; we return `none`.) -/
def BatchEntry.dictGet : BatchEntry → String → Option String
  | BatchEntry.record _, _ => none
  | BatchEntry.errorEntry fn err, key =>
      if key = "filename" then some fn
      else if key = "error" then some err
      else if key = "status" then some "failed"
      else none

/-- One uploaded file of a batch request: its content type and the outcome
that `pipeline_service.analyze_image` would produce for it. -/
structure UploadItem where
  content_type : Option String
  filename : String
  outcome : Except String AnalysisRecord

/-- The batch accumulation loop (routes.py lines 66-82): an item is processed
only when its content type starts with `image/`; a successful analysis
appends the record, an exception appends the error dict; any other item
appends nothing. -/
def batchResults : List UploadItem → List BatchEntry
  | [] => []
  | f :: fs =>
      (if fileIsImage f.content_type then
        match f.outcome with
        | Except.ok r => [BatchEntry.record r]
        | Except.error e => [BatchEntry.errorEntry f.filename e]
      else []) ++ batchResults fs

/-- The `BatchAnalysisResult` response body (routes.py lines 89-95). -/
structure BatchAnalysisResult where
  total_processed : ℤ
  ai_generated_count : ℤ
  likely_real_count : ℤ
  uncertain_count : ℤ
  results : List BatchEntry
deriving DecidableEq

/-- The statistics block of `analyze_batch_images` (routes.py lines 84-95):
`sum(1 for r in results if isinstance(r, dict) and
r.get("final_verdict") == "ai_generated")` and its `likely_real` twin, with
`uncertain_count = total - ai_detected - real_detected`. -/
def batchStats (results : List BatchEntry) : BatchAnalysisResult :=
  let total : ℤ := results.length
  let ai_detected : ℤ :=
    (results.countP fun r => r.isDict && (r.dictGet "final_verdict" == some "ai_generated"))
  let real_detected : ℤ :=
    (results.countP fun r => r.isDict && (r.dictGet "final_verdict" == some "likely_real"))
  ⟨total, ai_detected, real_detected, total - ai_detected - real_detected, results⟩

/-- `analyze_batch_images` (routes.py lines 55-95): reject more than 50 files
with 400, otherwise process the items and return the statistics. -/
def analyze_batch_images (files : List UploadItem) : Except Nat BatchAnalysisResult :=
  if 50 < files.length then Except.error 400
  else Except.ok (batchStats (batchResults files))

/-- The count the spec prescribes for the batch statistics: the number of
entries in `results` that are analysis records with the given final verdict
(refinement comparison definition, written from the spec's words). -/
def specVerdictCount (v : VerdictType) (results : List BatchEntry) : Nat :=
  results.countP fun e =>
    match e with
    | BatchEntry.record r => r.final_verdict == v
    | BatchEntry.errorEntry _ _ => false

/-! ### Helper lemmas on score accumulation -/

theorem aiSum_nil : aiSum [] = 0 := rfl

theorem realSum_nil : realSum [] = 0 := rfl

theorem aiSum_append (a b : List Contribution) :
    aiSum (a ++ b) = aiSum a + aiSum b := by
  simp [aiSum]

theorem realSum_append (a b : List Contribution) :
    realSum (a ++ b) = realSum a + realSum b := by
  simp [realSum]

theorem aiSum_cons_ai (q : ℚ) (cs : List Contribution) :
    aiSum (⟨Side.ai, q⟩ :: cs) = q + aiSum cs := by
  simp [aiSum]

theorem aiSum_cons_real (q : ℚ) (cs : List Contribution) :
    aiSum (⟨Side.real, q⟩ :: cs) = aiSum cs := by
  simp [aiSum]

theorem realSum_cons_ai (q : ℚ) (cs : List Contribution) :
    realSum (⟨Side.ai, q⟩ :: cs) = realSum cs := by
  simp [realSum]

theorem realSum_cons_real (q : ℚ) (cs : List Contribution) :
    realSum (⟨Side.real, q⟩ :: cs) = q + realSum cs := by
  simp [realSum]

theorem aiSum_nonneg (cs : List Contribution)
    (h : ∀ c ∈ cs, 0 ≤ c.amount) : 0 ≤ aiSum cs := by
  induction cs with
  | nil => simp [aiSum]
  | cons c cs ih =>
      have hc : 0 ≤ c.amount := h c (List.mem_cons_self c cs)
      have ih' : 0 ≤ aiSum cs := ih fun x hx => h x (List.mem_cons_of_mem c hx)
      obtain ⟨side, amt⟩ := c
      cases side
      · rw [aiSum_cons_ai]; exact add_nonneg hc ih'
      · rw [aiSum_cons_real]; exact ih'

theorem realSum_nonneg (cs : List Contribution)
    (h : ∀ c ∈ cs, 0 ≤ c.amount) : 0 ≤ realSum cs := by
  induction cs with
  | nil => simp [realSum]
  | cons c cs ih =>
      have hc : 0 ≤ c.amount := h c (List.mem_cons_self c cs)
      have ih' : 0 ≤ realSum cs := ih fun x hx => h x (List.mem_cons_of_mem c hx)
      obtain ⟨side, amt⟩ := c
      cases side
      · rw [realSum_cons_ai]; exact ih'
      · rw [realSum_cons_real]; exact add_nonneg hc ih'

theorem aiSum_take_mono (cs : List Contribution)
    (h : ∀ c ∈ cs, 0 ≤ c.amount) (n : ℕ) :
    aiSum (cs.take n) ≤ aiSum (cs.take (n + 1)) := by
  induction cs generalizing n with
  | nil => simp
  | cons c cs ih =>
      cases n with
      | zero =>
          have hc : 0 ≤ c.amount := h c (List.mem_cons_self c cs)
          obtain ⟨side, amt⟩ := c
          cases side
          · simp only [List.take_zero, List.take_succ_cons, List.take_zero,
              aiSum_cons_ai, aiSum_nil]
            simpa using hc
          · simp [aiSum_cons_real]
      | succ n =>
          have ih' := ih (fun x hx => h x (List.mem_cons_of_mem c hx)) n
          obtain ⟨side, amt⟩ := c
          cases side
          · simpa [List.take_succ_cons, aiSum_cons_ai] using ih'
          · simpa [List.take_succ_cons, aiSum_cons_real] using ih'

theorem realSum_take_mono (cs : List Contribution)
    (h : ∀ c ∈ cs, 0 ≤ c.amount) (n : ℕ) :
    realSum (cs.take n) ≤ realSum (cs.take (n + 1)) := by
  induction cs generalizing n with
  | nil => simp
  | cons c cs ih =>
      cases n with
      | zero =>
          have hc : 0 ≤ c.amount := h c (List.mem_cons_self c cs)
          obtain ⟨side, amt⟩ := c
          cases side
          · simp [realSum_cons_ai]
          · simp only [List.take_zero, List.take_succ_cons, List.take_zero,
              realSum_cons_real, realSum_nil]
            simpa using hc
      | succ n =>
          have ih' := ih (fun x hx => h x (List.mem_cons_of_mem c hx)) n
          obtain ⟨side, amt⟩ := c
          cases side
          · simpa [List.take_succ_cons, realSum_cons_ai] using ih'
          · simpa [List.take_succ_cons, realSum_cons_real] using ih'

/-! ### Non-negativity of the individual phase contributions (default config) -/

theorem hash_amounts_nonneg (h : HashResult) :
    ∀ c ∈ hashContributions defaultConfig h, 0 ≤ c.amount := by
  intro c hc
  unfold hashContributions at hc
  split_ifs at hc with h1 h2
  · rw [List.mem_singleton] at hc
    subst hc
    have hmin : (0:ℚ) ≤ min ((h.similarity - 85/100) / (15/100) + 1/2) 1 := by
      refine le_min ?_ (by norm_num)
      have : (0:ℚ) ≤ (h.similarity - 85/100) / (15/100) :=
        div_nonneg (by linarith) (by norm_num)
      linarith
    simp only [defaultConfig]
    nlinarith
  · have hu0 : (0:ℚ) ≤ (85/100 - h.similarity) / (15/100) := by
      push_neg at h1
      exact div_nonneg (by linarith) (by norm_num)
    have hu1 : (85/100 - h.similarity) / (15/100) ≤ 1 := by
      rw [div_le_one (by norm_num)]
      linarith
    rcases List.mem_cons.mp hc with rfl | hc'
    · simp only [defaultConfig]
      nlinarith
    · rw [List.mem_singleton] at hc'
      subst hc'
      simp only [defaultConfig]
      nlinarith
  · rw [List.mem_singleton] at hc
    subst hc
    norm_num [defaultConfig]

theorem metadata_amounts_nonneg (m : MetadataResult) :
    ∀ c ∈ metadataContributions defaultConfig m, 0 ≤ c.amount := by
  intro c hc
  unfold metadataContributions at hc
  simp only [List.mem_append] at hc
  rcases hc with ((hc | hc) | hc) | hc
  · unfold sigContributions at hc
    split_ifs at hc
    · simp at hc
    · rw [List.mem_singleton] at hc
      subst hc
      norm_num [defaultConfig]
  · unfold c2paContributions at hc
    split_ifs at hc
    · rw [List.mem_singleton] at hc
      subst hc
      norm_num [defaultConfig]
    · rw [List.mem_singleton] at hc
      subst hc
      norm_num [defaultConfig]
    · simp at hc
  · unfold exifContributions at hc
    split_ifs at hc with h1 h2
    · rw [List.mem_singleton] at hc
      subst hc
      simp only [defaultConfig]
      nlinarith
    · rw [List.mem_singleton] at hc
      subst hc
      simp only [defaultConfig]
      nlinarith
    · rw [List.mem_singleton] at hc
      subst hc
      norm_num [defaultConfig]
  · unfold inconsContributions at hc
    split_ifs at hc
    · simp at hc
    rw [List.mem_singleton] at hc
    subst hc
    have : (0:ℚ) ≤ min ((m.exif_inconsistencies.length : ℚ) * (5/100)) (15/100) :=
      le_min (by positivity) (by norm_num)
    simp only [defaultConfig]
    nlinarith

theorem detection_amounts_nonneg (d : Option DetectionResult)
    (hd : ∀ dr, d = some dr → 0 ≤ dr.confidence) :
    ∀ c ∈ detectionContributions defaultConfig d, 0 ≤ c.amount := by
  intro c hc
  cases d with
  | none => simp [detectionContributions] at hc
  | some dr =>
      have hconf := hd dr rfl
      simp only [detectionContributions] at hc
      split_ifs at hc
      · rw [List.mem_singleton] at hc
        subst hc
        simp only [defaultConfig]
        nlinarith
      · rw [List.mem_singleton] at hc
        subst hc
        simp only [defaultConfig]
        nlinarith

theorem fusion_amounts_nonneg (h : HashResult) (m : MetadataResult)
    (d : Option DetectionResult) (hd : ∀ dr, d = some dr → 0 ≤ dr.confidence) :
    ∀ c ∈ fusionContributions defaultConfig h m d, 0 ≤ c.amount := by
  intro c hc
  unfold fusionContributions at hc
  simp only [List.mem_append] at hc
  rcases hc with (hc | hc) | hc
  · exact hash_amounts_nonneg h c hc
  · exact metadata_amounts_nonneg m c hc
  · exact detection_amounts_nonneg d hd c hc

/-- The hash phase always contributes exactly at least `HASH_WEIGHT * 0.5 =
3/20` in total, whatever the similarity value. -/
theorem hash_total_ge (h : HashResult) :
    3/20 ≤ aiSum (hashContributions defaultConfig h) +
      realSum (hashContributions defaultConfig h) := by
  unfold hashContributions
  split_ifs with h1 h2
  · have hmin : (1:ℚ)/2 ≤ min ((h.similarity - 85/100) / (15/100) + 1/2) 1 := by
      refine le_min ?_ (by norm_num)
      have : (0:ℚ) ≤ (h.similarity - 85/100) / (15/100) :=
        div_nonneg (by linarith) (by norm_num)
      linarith
    rw [aiSum_cons_ai, aiSum_nil, realSum_cons_ai, realSum_nil]
    simp only [defaultConfig]
    nlinarith
  · rw [aiSum_cons_ai, aiSum_cons_real, aiSum_nil,
      realSum_cons_ai, realSum_cons_real, realSum_nil]
    simp only [defaultConfig]
    ring_nf
    nlinarith [sq_nonneg h.similarity]
  · rw [aiSum_cons_real, aiSum_nil, realSum_cons_real, realSum_nil]
    norm_num [defaultConfig]

/-- With any valid detection confidence, the fused total is strictly
positive. -/
theorem fusion_total_pos (h : HashResult) (m : MetadataResult)
    (d : Option DetectionResult) (hd : ∀ dr, d = some dr → 0 ≤ dr.confidence) :
    0 < aiSum (fusionContributions defaultConfig h m d) +
      realSum (fusionContributions defaultConfig h m d) := by
  unfold fusionContributions
  rw [aiSum_append, aiSum_append, realSum_append, realSum_append]
  have hhash := hash_total_ge h
  have hma := aiSum_nonneg _ (metadata_amounts_nonneg m)
  have hmr := realSum_nonneg _ (metadata_amounts_nonneg m)
  have hda := aiSum_nonneg _ (detection_amounts_nonneg d hd)
  have hdr := realSum_nonneg _ (detection_amounts_nonneg d hd)
  linarith

/-! ### Claim statements -/

/-- Branch-by-branch behaviour of the hash phase asserted by claim C4: the
exact contribution to each accumulator per similarity band, the values at the
band boundaries `s = 0.70` and `s = 0.85`, and the single reasoning entry
carrying the similarity value. -/
def HashPhaseClaim (cfg : FusionConfig) (b : Bool) (s : ℚ) : Prop :=
  (85/100 ≤ s →
      aiSum (hashContributions cfg ⟨b, s⟩) =
        cfg.HASH_WEIGHT * min ((s - 85/100) / (15/100) + 1/2) 1 ∧
      realSum (hashContributions cfg ⟨b, s⟩) = 0 ∧
      hashReasons ⟨b, s⟩ = [Reason.hash_high b s]) ∧
  (70/100 ≤ s → s < 85/100 →
      aiSum (hashContributions cfg ⟨b, s⟩) =
        cfg.HASH_WEIGHT * (1/2) * (1 - (85/100 - s) / (15/100)) ∧
      realSum (hashContributions cfg ⟨b, s⟩) =
        cfg.HASH_WEIGHT * (1/2) * ((85/100 - s) / (15/100)) ∧
      hashReasons ⟨b, s⟩ = [Reason.hash_mid s]) ∧
  (s < 70/100 →
      aiSum (hashContributions cfg ⟨b, s⟩) = 0 ∧
      realSum (hashContributions cfg ⟨b, s⟩) = cfg.HASH_WEIGHT * (1/2) ∧
      hashReasons ⟨b, s⟩ = [Reason.hash_low s]) ∧
  (s = 70/100 →
      aiSum (hashContributions cfg ⟨b, s⟩) = 0 ∧
      realSum (hashContributions cfg ⟨b, s⟩) = cfg.HASH_WEIGHT * (1/2)) ∧
  (s = 85/100 →
      aiSum (hashContributions cfg ⟨b, s⟩) = cfg.HASH_WEIGHT * (1/2)) ∧
  (hashReasons ⟨b, s⟩).length = 1

/-- C4: the hash contribution of fusion is the three-band piecewise function
of the similarity, with the boundary values the claim names, and one
reasoning entry per branch carrying the similarity. -/
theorem hash_phase_piecewise (cfg : FusionConfig) (b : Bool) (s : ℚ)
    (h0 : 0 ≤ s) (h1 : s ≤ 1) : HashPhaseClaim cfg b s := by
  unfold HashPhaseClaim hashContributions hashReasons
  refine ⟨?_, ?_, ?_, ?_, ?_, ?_⟩
  · intro h85
    rw [if_pos h85, if_pos h85]
    rw [aiSum_cons_ai, aiSum_nil, realSum_cons_ai, realSum_nil]
    exact ⟨add_zero _, rfl, rfl⟩
  · intro h70 h85
    rw [if_neg (not_le.mpr h85), if_pos h70, if_neg (not_le.mpr h85), if_pos h70]
    rw [aiSum_cons_ai, aiSum_cons_real, aiSum_nil,
      realSum_cons_ai, realSum_cons_real, realSum_nil]
    exact ⟨add_zero _, add_zero _, rfl⟩
  · intro h70
    have h85 : ¬(85/100 ≤ s) := by intro hx; linarith
    rw [if_neg h85, if_neg (not_le.mpr h70), if_neg h85, if_neg (not_le.mpr h70)]
    rw [aiSum_cons_real, aiSum_nil, realSum_cons_real, realSum_nil]
    exact ⟨rfl, add_zero _, rfl⟩
  · rintro rfl
    norm_num
    rw [aiSum_cons_ai, aiSum_cons_real, aiSum_nil,
      realSum_cons_ai, realSum_cons_real, realSum_nil]
    norm_num
  · rintro rfl
    norm_num
    rw [aiSum_cons_ai, aiSum_nil]
    norm_num
  · split_ifs <;> rfl

/-- The four metadata rules asserted by claim C5, stated rule by rule over the
embedded contribution and reason lists, together with the fixed lookup table
for the inconsistency tags. -/
def MetadataPhaseClaim (cfg : FusionConfig) (m : MetadataResult) : Prop :=
  (m.ai_tool_signatures.isEmpty = false →
      sigContributions cfg m = [⟨Side.ai, cfg.METADATA_WEIGHT * (4/10)⟩] ∧
      sigReasons m = [Reason.ai_tools m.ai_tool_signatures]) ∧
  (m.ai_tool_signatures.isEmpty = true →
      sigContributions cfg m = [] ∧ sigReasons m = []) ∧
  (m.has_c2pa = true → m.c2pa_ai_related_assertions = true →
      c2paContributions cfg m = [⟨Side.ai, cfg.METADATA_WEIGHT * (2/10)⟩]) ∧
  (m.has_c2pa = true → m.c2pa_ai_related_assertions = false →
      c2paContributions cfg m = [⟨Side.real, cfg.METADATA_WEIGHT * (15/100)⟩]) ∧
  (m.has_c2pa = false → c2paContributions cfg m = []) ∧
  (7/10 ≤ m.exif_authenticity_score →
      exifContributions cfg m =
        [⟨Side.real, cfg.METADATA_WEIGHT * (35/100) * m.exif_authenticity_score⟩] ∧
      exifReasons m = [Reason.exif_high m.exif_authenticity_score]) ∧
  (3/10 ≤ m.exif_authenticity_score → m.exif_authenticity_score < 7/10 →
      exifContributions cfg m =
        [⟨Side.real, cfg.METADATA_WEIGHT * (15/100) * m.exif_authenticity_score⟩] ∧
      exifReasons m = [Reason.exif_mid m.exif_authenticity_score]) ∧
  (m.exif_authenticity_score < 3/10 →
      exifContributions cfg m = [⟨Side.ai, cfg.METADATA_WEIGHT * (25/100)⟩] ∧
      exifReasons m = [Reason.exif_low m.exif_authenticity_score]) ∧
  (m.exif_inconsistencies.isEmpty = false →
      inconsContributions cfg m =
        [⟨Side.ai, cfg.METADATA_WEIGHT *
            min ((m.exif_inconsistencies.length : ℚ) * (5/100)) (15/100)⟩] ∧
      inconsReasons m =
        [Reason.exif_anomalies (m.exif_inconsistencies.map inconsistency_msgs)]) ∧
  (m.exif_inconsistencies.isEmpty = true →
      inconsContributions cfg m = [] ∧ inconsReasons m = []) ∧
  metadataContributions cfg m =
    sigContributions cfg m ++ c2paContributions cfg m ++
      exifContributions cfg m ++ inconsContributions cfg m ∧
  inconsistency_msgs "editing_software_without_camera" = "편집 SW만 존재" ∧
  inconsistency_msgs "perfect_square_ai_resolution" = "AI 생성 해상도" ∧
  inconsistency_msgs "unrealistic_aperture" = "비현실적 촬영값" ∧
  inconsistency_msgs "missing_datetime_original" = "원본 시간 누락" ∧
  (∀ t : String, t ≠ "editing_software_without_camera" →
      t ≠ "perfect_square_ai_resolution" → t ≠ "unrealistic_aperture" →
      t ≠ "missing_datetime_original" → inconsistency_msgs t = t)

/-- C5: the metadata phase applies exactly the four independent additive
rules of the claim, with the fixed inconsistency-tag lookup table and
verbatim pass-through of unknown tags. -/
theorem metadata_phase_rules (cfg : FusionConfig) (m : MetadataResult) :
    MetadataPhaseClaim cfg m := by
  unfold MetadataPhaseClaim
  refine ⟨?_, ?_, ?_, ?_, ?_, ?_, ?_, ?_, ?_, ?_, rfl, rfl, rfl, rfl, rfl, ?_⟩
  · intro hne
    unfold sigContributions sigReasons
    rw [hne]
    exact ⟨rfl, rfl⟩
  · intro hemp
    unfold sigContributions sigReasons
    rw [hemp]
    exact ⟨rfl, rfl⟩
  · intro hc hair
    unfold c2paContributions
    rw [hc, hair]
    rfl
  · intro hc hair
    unfold c2paContributions
    rw [hc, hair]
    rfl
  · intro hc
    unfold c2paContributions
    rw [hc]
    rfl
  · intro h7
    unfold exifContributions exifReasons
    rw [if_pos h7, if_pos h7]
    exact ⟨rfl, rfl⟩
  · intro h3 h7
    unfold exifContributions exifReasons
    rw [if_neg (not_le.mpr h7), if_pos h3, if_neg (not_le.mpr h7), if_pos h3]
    exact ⟨rfl, rfl⟩
  · intro h3
    have h7 : ¬(7/10 ≤ m.exif_authenticity_score) := by intro hx; linarith
    unfold exifContributions exifReasons
    rw [if_neg h7, if_neg (not_le.mpr h3), if_neg h7, if_neg (not_le.mpr h3)]
    exact ⟨rfl, rfl⟩
  · intro hne
    unfold inconsContributions inconsReasons
    rw [hne]
    exact ⟨rfl, rfl⟩
  · intro hemp
    unfold inconsContributions inconsReasons
    rw [hemp]
    exact ⟨rfl, rfl⟩
  · intro t h1 h2 h3 h4
    unfold inconsistency_msgs
    rw [if_neg h1, if_neg h2, if_neg h3, if_neg h4]

/-- Verdict-resolution behaviour asserted by claim C6, over the embedded
`resolveVerdict` with the default threshold 0.7 and the 4-decimal rounding
applied by `_compute_verdict` on return. -/
def ResolutionClaim (a r : ℚ) : Prop :=
  (a + r = 0 →
      (resolveVerdict defaultConfig a r).1 = VerdictType.uncertain ∧
      round4 (resolveVerdict defaultConfig a r).2 = 1/2) ∧
  (a + r ≠ 0 →
      (7/10 ≤ a / (a + r) →
          (resolveVerdict defaultConfig a r).1 = VerdictType.ai_generated ∧
          round4 (resolveVerdict defaultConfig a r).2 = round4 (a / (a + r))) ∧
      (a / (a + r) ≤ 3/10 →
          (resolveVerdict defaultConfig a r).1 = VerdictType.likely_real ∧
          round4 (resolveVerdict defaultConfig a r).2 = round4 (1 - a / (a + r))) ∧
      (3/10 < a / (a + r) → a / (a + r) < 7/10 →
          (resolveVerdict defaultConfig a r).1 = VerdictType.uncertain ∧
          round4 (resolveVerdict defaultConfig a r).2 =
            round4 (1/2 + |a / (a + r) - 1/2|)))

/-- C6: verdict and confidence are resolved from the final score pair exactly
as the claim describes, with inclusive thresholds at 0.7 and 0.3 and the
confidence rounded to 4 decimal places. -/
theorem verdict_resolution (a r : ℚ) (ha : 0 ≤ a) (hr : 0 ≤ r) :
    ResolutionClaim a r := by
  unfold ResolutionClaim
  constructor
  · intro h0
    simp only [resolveVerdict, defaultConfig]
    rw [if_pos h0]
    refine ⟨rfl, ?_⟩
    unfold round4
    norm_num [round_eq]
  · intro hne
    have hpos : 0 < a + r := lt_of_le_of_ne (add_nonneg ha hr) (Ne.symm hne)
    simp only [resolveVerdict, defaultConfig]
    rw [if_neg hne, if_pos hpos]
    refine ⟨?_, ?_, ?_⟩
    · intro h7
      rw [if_pos h7]
      exact ⟨rfl, rfl⟩
    · intro h3
      have h7 : ¬((7:ℚ)/10 ≤ a / (a + r)) := not_le.mpr (lt_of_le_of_lt h3 (by norm_num))
      rw [if_neg h7, if_pos (by linarith : a / (a + r) ≤ 1 - 7/10)]
      exact ⟨rfl, rfl⟩
    · intro h3 h7
      rw [if_neg (not_le.mpr h7), if_neg (not_le.mpr (by linarith : 1 - 7/10 < a / (a + r)))]
      exact ⟨rfl, rfl⟩

/-- Non-negativity and monotonicity invariants asserted by claim C7 over the
full fused contribution sequence. -/
def NonNegClaim (h : HashResult) (m : MetadataResult) (d : Option DetectionResult) : Prop :=
  (∀ c ∈ fusionContributions defaultConfig h m d, 0 ≤ c.amount) ∧
  (∀ n : ℕ,
      aiSum ((fusionContributions defaultConfig h m d).take n) ≤
        aiSum ((fusionContributions defaultConfig h m d).take (n + 1)) ∧
      realSum ((fusionContributions defaultConfig h m d).take n) ≤
        realSum ((fusionContributions defaultConfig h m d).take (n + 1))) ∧
  0 ≤ aiSum (fusionContributions defaultConfig h m d) ∧
  0 ≤ realSum (fusionContributions defaultConfig h m d) ∧
  0 ≤ aiSum (fusionContributions defaultConfig h m d) /
      (aiSum (fusionContributions defaultConfig h m d) +
        realSum (fusionContributions defaultConfig h m d)) ∧
  aiSum (fusionContributions defaultConfig h m d) /
      (aiSum (fusionContributions defaultConfig h m d) +
        realSum (fusionContributions defaultConfig h m d)) ≤ 1

/-- C7: for valid inputs every contribution is a non-negative addition to one
accumulator, both accumulators grow monotonically, both are non-negative at
the end, and the final ratio lies in [0, 1]. -/
theorem fusion_nonneg_invariant (h : HashResult) (m : MetadataResult)
    (d : Option DetectionResult)
    (hs0 : 0 ≤ h.similarity) (hs1 : h.similarity ≤ 1)
    (he0 : 0 ≤ m.exif_authenticity_score) (he1 : m.exif_authenticity_score ≤ 1)
    (hd : ∀ dr, d = some dr → 0 ≤ dr.confidence ∧ dr.confidence ≤ 1) :
    NonNegClaim h m d := by
  have hd' : ∀ dr, d = some dr → 0 ≤ dr.confidence := fun dr hdr => (hd dr hdr).1
  have hmem := fusion_amounts_nonneg h m d hd'
  have hai := aiSum_nonneg _ hmem
  have hre := realSum_nonneg _ hmem
  have htot := fusion_total_pos h m d hd'
  refine ⟨hmem,
    fun n => ⟨aiSum_take_mono _ hmem n, realSum_take_mono _ hmem n⟩,
    hai, hre, ?_, ?_⟩
  · exact div_nonneg hai (by linarith)
  · rw [div_le_one htot]
    linarith

/-- The reachability property asserted by claim C9: the hash phase scores
strictly positively, hence the fused total is strictly positive and the
`total == 0` fallback branch of verdict resolution can never be taken. -/
def HashAlwaysScoresClaim (h : HashResult) (m : MetadataResult)
    (d : Option DetectionResult) : Prop :=
  0 < aiSum (hashContributions defaultConfig h) +
      realSum (hashContributions defaultConfig h) ∧
  0 < aiSum (fusionContributions defaultConfig h m d) +
      realSum (fusionContributions defaultConfig h m d) ∧
  ¬(aiSum (fusionContributions defaultConfig h m d) +
      realSum (fusionContributions defaultConfig h m d) = 0)

/-- C9: with the configured positive hash weight the hash phase always adds a
strictly positive total, so the `total == 0` branch is unreachable for any
input with a valid (non-negative) detection confidence. -/
theorem hash_phase_always_scores (h : HashResult) (m : MetadataResult)
    (d : Option DetectionResult)
    (hd : ∀ dr, d = some dr → 0 ≤ dr.confidence) :
    HashAlwaysScoresClaim h m d := by
  have h2 := fusion_total_pos h m d hd
  exact ⟨lt_of_lt_of_le (by norm_num) (hash_total_ge h), h2, h2.ne'⟩

/-! ### Scale invariance of the weights (claim C8) -/

/-- Multiplying the three layer weights by a common scalar, keeping the
confidence threshold. -/
def scaleWeights (c : ℚ) (cfg : FusionConfig) : FusionConfig :=
  ⟨cfg.CONFIDENCE_THRESHOLD, c * cfg.AI_DETECTION_WEIGHT,
    c * cfg.METADATA_WEIGHT, c * cfg.HASH_WEIGHT⟩

theorem hashContributions_scale (c : ℚ) (cfg : FusionConfig) (h : HashResult) :
    hashContributions (scaleWeights c cfg) h =
      (hashContributions cfg h).map fun ct => ⟨ct.side, c * ct.amount⟩ := by
  unfold hashContributions scaleWeights
  split_ifs <;> simp [mul_assoc]

theorem sigContributions_scale (c : ℚ) (cfg : FusionConfig) (m : MetadataResult) :
    sigContributions (scaleWeights c cfg) m =
      (sigContributions cfg m).map fun ct => ⟨ct.side, c * ct.amount⟩ := by
  unfold sigContributions scaleWeights
  split_ifs <;> simp [mul_assoc]

theorem c2paContributions_scale (c : ℚ) (cfg : FusionConfig) (m : MetadataResult) :
    c2paContributions (scaleWeights c cfg) m =
      (c2paContributions cfg m).map fun ct => ⟨ct.side, c * ct.amount⟩ := by
  unfold c2paContributions scaleWeights
  split_ifs <;> simp [mul_assoc]

theorem exifContributions_scale (c : ℚ) (cfg : FusionConfig) (m : MetadataResult) :
    exifContributions (scaleWeights c cfg) m =
      (exifContributions cfg m).map fun ct => ⟨ct.side, c * ct.amount⟩ := by
  unfold exifContributions scaleWeights
  split_ifs <;> simp [mul_assoc]

theorem inconsContributions_scale (c : ℚ) (cfg : FusionConfig) (m : MetadataResult) :
    inconsContributions (scaleWeights c cfg) m =
      (inconsContributions cfg m).map fun ct => ⟨ct.side, c * ct.amount⟩ := by
  unfold inconsContributions scaleWeights
  split_ifs <;> simp [mul_assoc]

theorem detectionContributions_scale (c : ℚ) (cfg : FusionConfig)
    (d : Option DetectionResult) :
    detectionContributions (scaleWeights c cfg) d =
      (detectionContributions cfg d).map fun ct => ⟨ct.side, c * ct.amount⟩ := by
  cases d with
  | none => rfl
  | some dr =>
      simp only [detectionContributions, scaleWeights]
      split_ifs <;> simp [mul_assoc]

theorem fusionContributions_scale (c : ℚ) (cfg : FusionConfig) (h : HashResult)
    (m : MetadataResult) (d : Option DetectionResult) :
    fusionContributions (scaleWeights c cfg) h m d =
      (fusionContributions cfg h m d).map fun ct => ⟨ct.side, c * ct.amount⟩ := by
  unfold fusionContributions metadataContributions
  rw [hashContributions_scale, sigContributions_scale, c2paContributions_scale,
    exifContributions_scale, inconsContributions_scale, detectionContributions_scale]
  simp [List.map_append]

theorem aiSum_map_scale (c : ℚ) (cs : List Contribution) :
    aiSum (cs.map fun ct => ⟨ct.side, c * ct.amount⟩) = c * aiSum cs := by
  induction cs with
  | nil => simp [aiSum]
  | cons x cs ih =>
      obtain ⟨side, amt⟩ := x
      cases side
      · simp only [List.map_cons, aiSum_cons_ai]
        rw [ih]
        ring
      · simp only [List.map_cons, aiSum_cons_real]
        exact ih

theorem realSum_map_scale (c : ℚ) (cs : List Contribution) :
    realSum (cs.map fun ct => ⟨ct.side, c * ct.amount⟩) = c * realSum cs := by
  induction cs with
  | nil => simp [realSum]
  | cons x cs ih =>
      obtain ⟨side, amt⟩ := x
      cases side
      · simp only [List.map_cons, realSum_cons_ai]
        exact ih
      · simp only [List.map_cons, realSum_cons_real]
        rw [ih]
        ring

theorem resolveVerdict_scale (cfg : FusionConfig) (c a r : ℚ) (hc : 0 < c) :
    resolveVerdict cfg (c * a) (c * r) = resolveVerdict cfg a r := by
  have hmul : c * a + c * r = c * (a + r) := by ring
  by_cases ht : a + r = 0
  · simp only [resolveVerdict]
    rw [hmul, ht, mul_zero]
    norm_num
  · have hct : c * (a + r) ≠ 0 := mul_ne_zero hc.ne' ht
    have hratio : (if 0 < c * (a + r) then c * a / (c * (a + r)) else (1:ℚ)/2) =
        (if 0 < a + r then a / (a + r) else (1:ℚ)/2) := by
      by_cases hp : 0 < a + r
      · rw [if_pos (mul_pos hc hp), if_pos hp, mul_div_mul_left a (a + r) hc.ne']
      · have hcp : ¬(0 < c * (a + r)) := by
          push_neg
          push_neg at hp
          nlinarith
        rw [if_neg hcp, if_neg hp]
    simp only [resolveVerdict]
    rw [hmul, if_neg hct, if_neg ht, hratio]

/-- C8: scaling all three weights by any positive factor leaves the verdict,
the (rounded) confidence and the reasoning trail of `_compute_verdict`
unchanged — only relative weighting matters. -/
theorem weight_scale_invariance (c : ℚ) (cfg : FusionConfig) (h : HashResult)
    (m : MetadataResult) (d : Option DetectionResult) (hc : 0 < c) :
    compute_verdict (scaleWeights c cfg) h m d = compute_verdict cfg h m d := by
  have hthr : resolveVerdict (scaleWeights c cfg) = resolveVerdict cfg := rfl
  simp only [compute_verdict]
  rw [fusionContributions_scale, aiSum_map_scale, realSum_map_scale, hthr,
    resolveVerdict_scale cfg c _ _ hc]

/-! ### Routes and hash-service claims -/

/-- Sample analysis record used as a concrete success outcome. -/
def sampleRecord : AnalysisRecord :=
  ⟨"a3f2", "photo.png", VerdictType.ai_generated, 9/10, [], 12,
    ["hash_check", "metadata_analysis", "ai_detection"]⟩

/-- C1 (refuted by the code): the route's keyword call to `analyze_image`
does not bind — `skip_ai_detection` is not a parameter of
`PipelineService.analyze_image` — so even for an `image/png` upload whose
analysis would succeed, `/analyze` returns HTTP 500, never the record. -/
theorem analyze_route_typeerror :
    kwargsBind analyze_image_params route_analyze_kwargs = false ∧
    analyze_single_image (some "image/png") (Except.ok sampleRecord) =
      RouteResponse.serverError 500 := by
  constructor
  · decide
  · decide

/-- C2 (refuted by the code): the batch statistics only examine entries that
are Python dicts, so a successful record with verdict `ai_generated` is not
counted — the code reports 0 where the spec's count is 1, and files the
record under `uncertain_count`. -/
theorem batch_count_ignores_records :
    (batchStats [BatchEntry.record sampleRecord]).ai_generated_count = 0 ∧
    specVerdictCount VerdictType.ai_generated [BatchEntry.record sampleRecord] = 1 ∧
    (batchStats [BatchEntry.record sampleRecord]).total_processed = 1 ∧
    (batchStats [BatchEntry.record sampleRecord]).uncertain_count = 1 := by
  refine ⟨?_, ?_, ?_, ?_⟩ <;> decide

/-- Claim C3 as stated: `compute_hash` returns a `HashResult` for every byte
string, every decoder outcome and every database — i.e. it never lets an
exception cross its boundary. -/
def ComputeHashTotalClaim : Prop :=
  ∀ (I V : Type) (decode : List Nat → Option I) (extract : I → V)
    (cos : V → V → ℚ) (db : List V) (threshold : ℚ) (bytes : List Nat),
    ∃ hr : HashResult,
      compute_hash I V decode extract cos db threshold bytes = Except.ok hr

/-- C3 counterexample: on bytes that PIL cannot decode (e.g. the empty byte
string, for which `Image.open` raises `UnidentifiedImageError`),
`compute_hash` raises instead of returning a neutral signal. -/
theorem compute_hash_not_total : ¬ ComputeHashTotalClaim := by
  intro hclaim
  obtain ⟨hr, heq⟩ :=
    hclaim Unit Unit (fun _ => none) (fun i => i) (fun _ _ => 0) [] (85/100) []
  simp [compute_hash] at heq

/-- C3 amended: `compute_hash` returns a `HashResult` exactly when the bytes
decode; a decode failure propagates across the boundary as an exception
(there is no `similarity = 0` fallback inside `compute_hash`). -/
theorem compute_hash_ok_iff_decodes (I V : Type) (decode : List Nat → Option I)
    (extract : I → V) (cos : V → V → ℚ) (db : List V) (threshold : ℚ)
    (bytes : List Nat) :
    (∃ hr : HashResult,
        compute_hash I V decode extract cos db threshold bytes = Except.ok hr) ↔
      (decode bytes).isSome = true := by
  unfold compute_hash
  cases hdec : decode bytes <;> simp

/-- C10: an uploaded batch item whose content type is missing or does not
start with `image/` produces no entry of any kind in `results` and is
excluded from `total_processed`, which counts only the image-typed items. -/
theorem batch_skips_nonimage :
    (∀ (f : UploadItem) (fs : List UploadItem),
        fileIsImage f.content_type = false →
        batchResults (f :: fs) = batchResults fs) ∧
    (∀ files : List UploadItem,
        (batchResults files).length =
          (files.filter fun f => fileIsImage f.content_type).length) ∧
    (∀ files : List UploadItem,
        (batchStats (batchResults files)).total_processed =
          ((files.filter fun f => fileIsImage f.content_type).length : ℤ)) := by
  have hlen : ∀ files : List UploadItem,
      (batchResults files).length =
        (files.filter fun f => fileIsImage f.content_type).length := by
    intro files
    induction files with
    | nil => rfl
    | cons f fs ih =>
        cases hf : fileIsImage f.content_type
        · simp [batchResults, hf, List.filter_cons, ih]
        · cases ho : f.outcome <;>
            simp [batchResults, hf, ho, List.filter_cons, ih]
  refine ⟨?_, hlen, ?_⟩
  · intro f fs hf
    simp [batchResults, hf]
  · intro files
    show ((batchResults files).length : ℤ) = _
    rw [hlen files]

/-! ### Witnesses -/

/-- Sample hash signal (similarity 0.9). -/
def sampleHash : HashResult := ⟨true, 9/10⟩

/-- Sample metadata signal exercising every metadata rule. -/
def sampleMeta : MetadataResult :=
  ⟨true, true, ["midjourney"], 8/10, ["unrealistic_aperture"]⟩

/-- Sample detection signal (AI vote at confidence 0.8). -/
def sampleDetection : DetectionResult := ⟨"umm-maybe/AI-image-detector", true, 8/10⟩

/-- Sample non-image batch upload (missing content type). -/
def sampleNonImage : UploadItem := ⟨none, "notes.txt", Except.error "skipped"⟩

/-- Witness for C4 at similarity 0.9. -/
theorem hash_phase_piecewise_witness :
    (0:ℚ) ≤ 9/10 ∧ (9/10:ℚ) ≤ 1 ∧ HashPhaseClaim defaultConfig true (9/10) :=
  ⟨by norm_num, by norm_num,
    hash_phase_piecewise defaultConfig true (9/10) (by norm_num) (by norm_num)⟩

/-- Witness for C5 at a metadata signal triggering all four rules. -/
theorem metadata_phase_rules_witness : MetadataPhaseClaim defaultConfig sampleMeta :=
  metadata_phase_rules defaultConfig sampleMeta

/-- Witness for C6 at the spec's worked score pair (0.49, 0.126). -/
theorem verdict_resolution_witness :
    (0:ℚ) ≤ 49/100 ∧ (0:ℚ) ≤ 63/500 ∧ ResolutionClaim (49/100) (63/500) :=
  ⟨by norm_num, by norm_num,
    verdict_resolution (49/100) (63/500) (by norm_num) (by norm_num)⟩

/-- Witness for C7 at concrete valid signals. -/
theorem fusion_nonneg_invariant_witness :
    (0:ℚ) ≤ sampleHash.similarity ∧ sampleHash.similarity ≤ 1 ∧
    (0:ℚ) ≤ sampleMeta.exif_authenticity_score ∧
    sampleMeta.exif_authenticity_score ≤ 1 ∧
    NonNegClaim sampleHash sampleMeta (some sampleDetection) :=
  ⟨by norm_num [sampleHash], by norm_num [sampleHash],
    by norm_num [sampleMeta], by norm_num [sampleMeta],
    fusion_nonneg_invariant sampleHash sampleMeta (some sampleDetection)
      (by norm_num [sampleHash]) (by norm_num [sampleHash])
      (by norm_num [sampleMeta]) (by norm_num [sampleMeta])
      (fun dr hdr => by
        injection hdr with hdr'
        subst hdr'
        exact ⟨by norm_num [sampleDetection], by norm_num [sampleDetection]⟩)⟩

/-- Witness for C8 at scale factor 3. -/
theorem weight_scale_invariance_witness :
    (0:ℚ) < 3 ∧
    compute_verdict (scaleWeights 3 defaultConfig) sampleHash sampleMeta
        (some sampleDetection) =
      compute_verdict defaultConfig sampleHash sampleMeta (some sampleDetection) :=
  ⟨by norm_num,
    weight_scale_invariance 3 defaultConfig sampleHash sampleMeta
      (some sampleDetection) (by norm_num)⟩

/-- Witness for C9 with detection absent. -/
theorem hash_phase_always_scores_witness :
    HashAlwaysScoresClaim sampleHash sampleMeta none :=
  hash_phase_always_scores sampleHash sampleMeta none
    (fun _ hdr => Option.noConfusion hdr)

/-- Witness for C10 at a concrete non-image upload. -/
theorem batch_skips_nonimage_witness :
    fileIsImage sampleNonImage.content_type = false ∧
    batchResults [sampleNonImage] = batchResults [] :=
  ⟨rfl, batch_skips_nonimage.1 sampleNonImage [] rfl⟩

end AiImageFilter
